import Mathlib

/-!
The working space of gitsplit.

A shallow embedding of `gitsplit/working_space.go` (package `gitsplit`):
`WorkingSpaceFactory.CreateWorkingSpace`, `WorkingSpaceFactory.getRepository`,
`WorkingSpace.GetCachePool`, `WorkingSpace.Init` and `WorkingSpace.Close`.

Library calls (libgit2, the file system, the remote collection's `Flush`) are
external: what they return in one run is read from an `Env`, and every call
with an effect is appended to a trace of `Event`s, in program order.
Calls to the logger at `Info` level have no effect on the program and are
left out of the trace; `log.Fatal` is kept, since it ends the process.

`Config`, `GitUrl`, `GitRemote` and `GitRemoteCollection` belong to the package
but their declarations are in other files; they are modelled from the
specification and marked so.
-/

namespace Gitsplit

/-! ## Data model -/

/-- Go `error` values: a plain error, or the result of `errors.Wrap(cause, msg)`,
which keeps the cause and adds a message. -/
inductive GoError where
  | new (msg : String)
  | wrap (cause : GoError) (msg : String)
  deriving DecidableEq, Repr

/-- Modelled from the spec: the URL type of the configuration is declared outside
`working_space.go`. The spec calls it an "URL (local-path-aware)"; the three
fields are the values of the three methods the source calls on it,
`Url()`, `SchemelessUrl()` and `IsLocal()`. -/
structure GitUrl where
  url : String
  schemelessUrl : String
  isLocal : Bool
  deriving DecidableEq, Repr

/-- Modelled from the spec: a split definition, declared outside
`working_space.go`; the source only reads its `Targets`, a list of strings
(each is passed to `Add` both as name and as URL). -/
structure Split where
  Targets : List String
  deriving DecidableEq, Repr

/-- Modelled from the spec: the configuration, declared outside
`working_space.go`: "CacheUrl: optional URL (local-path-aware), ProjectUrl: URL,
Splits: ordered list of Targets lists". `CacheUrl = none` is Go's `nil`. -/
structure Config where
  CacheUrl : Option GitUrl
  ProjectUrl : GitUrl
  Splits : List Split
  deriving DecidableEq, Repr

/-- A libgit2 repository handle; `path` is what `Path()` returns. -/
structure Repository where
  path : String
  deriving DecidableEq, Repr

/-- Modelled from the spec: a remote, declared outside `working_space.go`:
"name: string (unique within a collection), url: string, refspecs: set of
ref-namespace tokens". The source passes the namespaces as a `[]string`. -/
structure GitRemote where
  name : String
  url : String
  refs : List String
  deriving DecidableEq, Repr

/-- Modelled from the spec: what `Add` does when the name is already registered.
The spec leaves the choice open ("re-adding the same name replaces or is a
no-op"), so the collection is modelled for both and every statement about it
is made for both. -/
inductive ReAddPolicy where
  | replace
  | noop
  deriving DecidableEq, Repr

/-- Modelled from the spec: the remote collection, declared outside
`working_space.go`: "owning repository reference, mapping name → Remote". The
mapping is an association list keyed by `GitRemote.name`, in order of first
registration. -/
structure GitRemoteCollection where
  repository : Repository
  items : List GitRemote
  deriving DecidableEq, Repr

/-- Modelled from the spec: `NewGitRemoteCollection(repository)` is missing from
the sources; the spec has the factory build "an empty RemoteCollection bound to
the opened repository". -/
def NewGitRemoteCollection (repository : Repository) : GitRemoteCollection :=
  ⟨repository, []⟩

/-- Modelled from the spec: `GitRemoteCollection.Get(name)` is missing from the
sources; the spec makes it a lookup by name that fails exactly when "the named
remote is missing". The text of the error is not specified. -/
def GitRemoteCollection.Get (c : GitRemoteCollection) (name : String) :
    Except GoError GitRemote :=
  match c.items.find? (fun x => x.name == name) with
  | some r => .ok r
  | none => .error (GoError.new "remote not found")

/-- Modelled from the spec: `GitRemoteCollection.Add(name, url, refs)` is missing
from the sources; the spec makes it the registration of a remote under its
name, the name being "the only identity key". A new name is appended; a name
already present is replaced in place or left alone, by the policy. The result
is the remote now registered under the name, and the collection after. -/
def GitRemoteCollection.Add (p : ReAddPolicy) (c : GitRemoteCollection)
    (name url : String) (refs : List String) : GitRemote × GitRemoteCollection :=
  match c.items.find? (fun x => x.name == name) with
  | none => (⟨name, url, refs⟩, ⟨c.repository, c.items ++ [⟨name, url, refs⟩]⟩)
  | some old =>
    match p with
    | .replace =>
      (⟨name, url, refs⟩,
        ⟨c.repository, c.items.map (fun x => if x.name == name then ⟨name, url, refs⟩ else x)⟩)
    | .noop => (old, c)

/-- The names registered in a collection, in order of first registration. -/
def GitRemoteCollection.names (c : GitRemoteCollection) : List String :=
  c.items.map GitRemote.name

/-- The `WorkingSpace` struct (lines 15–19). -/
structure WorkingSpace where
  config : Config
  repository : Repository
  remotes : GitRemoteCollection
  deriving DecidableEq, Repr

/-- The cache pool `GetCachePool` returns: `&NullCachePool{}` or
`NewCachePool(path, remote)`. -/
inductive CachePool where
  | null
  | live (path : String) (remote : GitRemote)
  deriving DecidableEq, Repr

/-! ## The outside world -/

/-- What the external calls of one run return. There is one field per call
site, so two calls of the same library function need not agree.
`none` in an `Option GoError` is Go's `nil` error. -/
structure Env where
  /-- Line 45: `ioutil.TempDir("", "gitsplit_")`. -/
  tempDir : Except GoError String
  /-- Line 50: `git.InitRepository(cachePath, true)`. -/
  initCache : String → Except GoError Repository
  /-- Line 56: `utils.Copy(src, dst)`. -/
  copy : String → String → Option GoError
  /-- Line 60: `git.OpenRepository(repoPath)`. -/
  openRepository : String → Except GoError Repository
  /-- Line 66: `git.InitRepository(repoPath, true)`. -/
  initFresh : String → Except GoError Repository
  /-- Line 91: `utils.FileExists(path)`. -/
  fileExists : String → Bool
  /-- Line 95: `git.InitRepository(cachePath, true)`. -/
  initBootstrap : String → Except GoError Repository
  /-- Lines 102 and 104: how `Fetch()` on a remote ends; the source calls it as a
  statement and reads nothing back. -/
  fetch : GitRemote → Option GoError
  /-- Lines 113 and 121: `w.remotes.Flush()`, given the collection's content. -/
  flush : List GitRemote → Option GoError

/-- The calls with an effect, as they appear in a trace. `ok` records whether
the call succeeded. -/
inductive Event where
  | tempDir (ok : Bool)
  | initRepository (path : String) (bare : Bool) (ok : Bool)
  | openRepository (path : String) (ok : Bool)
  | copy (src dst : String) (ok : Bool)
  | free (path : String)
  | add (name url : String) (refs : List String)
  | fetch (name : String) (ok : Bool)
  | spawnClean
  | flush (ok : Bool)
  | removeAll (path : String)
  | fatal (e : GoError)
  deriving DecidableEq, Repr

/-- Whether an `Except` is a success. -/
def isOk {ε α : Type} : Except ε α → Bool
  | .ok _ => true
  | .error _ => false

/-! ## `WorkingSpace.Init` (lines 90–118) -/

/-- The running state of `Init`: the collection behind `w.remotes` and the
trace so far. -/
structure St where
  remotes : GitRemoteCollection
  trace : List Event
  deriving DecidableEq, Repr

/-- One `w.remotes.Add(name, url, refs)`: the remote it returns and the state
after. -/
def addRemote (p : ReAddPolicy) (s : St) (name url : String) (refs : List String) :
    GitRemote × St :=
  ((s.remotes.Add p name url refs).1,
    ⟨(s.remotes.Add p name url refs).2, s.trace ++ [Event.add name url refs]⟩)

/-- One `.Fetch()` on a remote; its outcome is dropped. -/
def fetchRemote (env : Env) (s : St) (r : GitRemote) : St :=
  ⟨s.remotes, s.trace ++ [Event.fetch r.name (env.fetch r).isNone]⟩

/-- Lines 91–100: the cache path is made a bare repository when the cache is
configured and the path does not exist. Returns the trace and the error. -/
def bootstrap (env : Env) (config : Config) : List Event × Option GoError :=
  match config.CacheUrl with
  | none => ([], none)
  | some c =>
    if !env.fileExists c.schemelessUrl then
      match env.initBootstrap c.schemelessUrl with
      | .error err =>
        ([Event.initRepository c.schemelessUrl true false],
          some (GoError.wrap err "failed to initialize working space"))
      | .ok repository =>
        ([Event.initRepository c.schemelessUrl true true, Event.free repository.path], none)
    else ([], none)

/-- Lines 101–103: the cache remote, when a cache is configured. -/
def addCache (p : ReAddPolicy) (env : Env) (config : Config) (s : St) : St :=
  match config.CacheUrl with
  | some c => fetchRemote env (addRemote p s "cache" c.url ["split"]).2
      (addRemote p s "cache" c.url ["split"]).1
  | none => s

/-- Line 104: the origin remote. -/
def addOrigin (p : ReAddPolicy) (env : Env) (config : Config) (s : St) : St :=
  fetchRemote env (addRemote p s "origin" config.ProjectUrl.url ["heads", "tags"]).2
    (addRemote p s "origin" config.ProjectUrl.url ["heads", "tags"]).1

/-- Lines 106–110: the two nested loops over the splits and their targets. -/
def addTargets (p : ReAddPolicy) (s : St) (splits : List Split) : St :=
  splits.foldl
    (fun acc split =>
      split.Targets.foldl (fun acc2 target => (addRemote p acc2 target target ["heads", "tags"]).2)
        acc)
    s

/-- What `Init` leaves: the working space after, the error returned and the
trace. -/
structure InitResult where
  ws : WorkingSpace
  err : Option GoError
  trace : List Event
  deriving DecidableEq, Repr

/-- The state before the `go w.remotes.Clean()` of line 111. -/
def registerAll (p : ReAddPolicy) (env : Env) (w : WorkingSpace) : St :=
  addTargets p
    (addOrigin p env w.config (addCache p env w.config ⟨w.remotes, (bootstrap env w.config).1⟩))
    w.config.Splits

/-- `WorkingSpace.Init` (lines 90–118). `Clean` is started in the background
(line 111); by the spec it prunes the repository's remote configuration, not
the collection in memory, so only its start is recorded. The error of `Flush`
is returned as it is (line 114). -/
def Init (p : ReAddPolicy) (env : Env) (w : WorkingSpace) : InitResult :=
  match (bootstrap env w.config).2 with
  | some err => ⟨w, some err, (bootstrap env w.config).1⟩
  | none =>
    ⟨⟨w.config, w.repository, (registerAll p env w).remotes⟩,
      env.flush (registerAll p env w).remotes.items,
      (registerAll p env w).trace ++
        [Event.spawnClean, Event.flush (env.flush (registerAll p env w).remotes.items).isNone]⟩

/-! ## `WorkingSpace.GetCachePool` (lines 69–80) -/

/-- `WorkingSpace.GetCachePool`. -/
def GetCachePool (w : WorkingSpace) : Except GoError CachePool :=
  match w.config.CacheUrl with
  | none => .ok CachePool.null
  | some _ =>
    match w.remotes.Get "cache" with
    | .error err => .error (GoError.wrap err "failed to create cache pool")
    | .ok remote => .ok (CachePool.live w.repository.path remote)

/-! ## `WorkingSpace.Close` (lines 120–126) -/

/-- How a call ends: it returns, or the process exits (`log.Fatal` logs and
then calls `os.Exit(1)`). -/
inductive Ending where
  | returned
  | exited
  deriving DecidableEq, Repr

/-- `WorkingSpace.Close`. -/
def Close (env : Env) (w : WorkingSpace) : Ending × List Event :=
  match env.flush w.remotes.items with
  | some err => (Ending.exited, [Event.flush false, Event.fatal err])
  | none =>
    (Ending.returned,
      [Event.flush true, Event.removeAll w.repository.path, Event.free w.repository.path])

/-! ## `WorkingSpaceFactory` (lines 25–67) -/

/-- `WorkingSpaceFactory.getRepository` (lines 44–67): the repository or the
error, and the trace. -/
def getRepository (env : Env) (config : Config) : Except GoError Repository × List Event :=
  match env.tempDir with
  | .error err => (.error (GoError.wrap err "failed to create working directory"),
      [Event.tempDir false])
  | .ok repoPath =>
    match config.CacheUrl with
    | some c =>
      if c.isLocal then
        match env.initCache c.schemelessUrl with
        | .error err =>
          (.error (GoError.wrap err "failed to initialize cache repository"),
            [Event.tempDir true, Event.initRepository c.schemelessUrl true false])
        | .ok repository =>
          match env.copy c.schemelessUrl repoPath with
          | some err =>
            (.error (GoError.wrap err "failed to create working space from cache"),
              [Event.tempDir true, Event.initRepository c.schemelessUrl true true,
                Event.free repository.path, Event.copy c.schemelessUrl repoPath false])
          | none =>
            (env.openRepository repoPath,
              [Event.tempDir true, Event.initRepository c.schemelessUrl true true,
                Event.free repository.path, Event.copy c.schemelessUrl repoPath true,
                Event.openRepository repoPath (isOk (env.openRepository repoPath))])
      else
        (env.initFresh repoPath,
          [Event.tempDir true, Event.initRepository repoPath true (isOk (env.initFresh repoPath))])
    | none =>
      (env.initFresh repoPath,
        [Event.tempDir true, Event.initRepository repoPath true (isOk (env.initFresh repoPath))])

/-- `WorkingSpaceFactory.CreateWorkingSpace` (lines 25–42): Go's pair of a
`*WorkingSpace` (`none` is `nil`) and an `error`, and the trace. -/
def CreateWorkingSpace (p : ReAddPolicy) (env : Env) (config : Config) :
    (Option WorkingSpace × Option GoError) × List Event :=
  match (getRepository env config).1 with
  | .error err =>
    ((none, some (GoError.wrap err "failed to create working repository")),
      (getRepository env config).2)
  | .ok repository =>
    match (Init p env ⟨config, repository, NewGitRemoteCollection repository⟩).err with
    | some err =>
      ((none, some err),
        (getRepository env config).2 ++
          (Init p env ⟨config, repository, NewGitRemoteCollection repository⟩).trace)
    | none =>
      ((some (Init p env ⟨config, repository, NewGitRemoteCollection repository⟩).ws, none),
        (getRepository env config).2 ++
          (Init p env ⟨config, repository, NewGitRemoteCollection repository⟩).trace)

/-! ## Definitions used by the statements -/

/-- Registration of a name in a list of names: appended unless present. -/
def insertName (ns : List String) (n : String) : List String :=
  if n ∈ ns then ns else ns ++ [n]

/-- All targets of the splits, in the order lines 106–110 visit them. -/
def allTargets (splits : List Split) : List String :=
  splits.flatMap Split.Targets

/-- The inner step of lines 106–110 over a flat list of targets. -/
def addTargetList (p : ReAddPolicy) (s : St) (L : List String) : St :=
  L.foldl (fun acc target => (addRemote p acc target target ["heads", "tags"]).2) s

/-- The names after lines 101–103, from the names before. -/
def cacheNames (config : Config) (ns : List String) : List String :=
  match config.CacheUrl with
  | some _ => insertName ns "cache"
  | none => ns

/-- An environment in which every external call succeeds and no path exists
beforehand. -/
def okEnv : Env :=
  ⟨.ok "/tmp/gitsplit_1", fun q => .ok ⟨q⟩, fun _ _ => none, fun q => .ok ⟨q⟩,
    fun q => .ok ⟨q⟩, fun _ => false, fun q => .ok ⟨q⟩, fun _ => none, fun _ => none⟩

/-- The configuration of the end-to-end example: no cache, one split with two
targets. -/
def exampleConfig : Config :=
  ⟨none, ⟨"https://example/proj.git", "https://example/proj.git", false⟩,
    [⟨["git@host:t1.git", "git@host:t2.git"]⟩]⟩

/-- A working space as `CreateWorkingSpace` builds it before `Init`. -/
def freshWorkingSpace (config : Config) (repository : Repository) : WorkingSpace :=
  ⟨config, repository, NewGitRemoteCollection repository⟩

/-- A working space before `Init`, for the example configuration. -/
def exampleWorkingSpace : WorkingSpace :=
  freshWorkingSpace exampleConfig ⟨"/tmp/gitsplit_1"⟩

/-- A remote operation: the registration of a remote, or a fetch. -/
inductive RemoteOp where
  | register (name url : String) (refs : List String)
  | fetch (name : String)
  deriving DecidableEq, Repr

/-- The remote operation an event stands for, if it is one. -/
def Event.toRemoteOp : Event → Option RemoteOp
  | .add name url refs => some (.register name url refs)
  | .fetch name _ => some (.fetch name)
  | _ => none

/-- The remote operations of a trace, in order. -/
def remoteOps (trace : List Event) : List RemoteOp :=
  trace.filterMap Event.toRemoteOp

/-- The remote operations of `Init` as the specification lists them: the cache
remote when a cache is configured, registered with namespace `split` and
fetched; the origin remote, registered with `heads` and `tags` and fetched;
then one registration per target of every split, in order, not fetched. -/
def specRemoteOps (config : Config) : List RemoteOp :=
  (match config.CacheUrl with
    | some c => [RemoteOp.register "cache" c.url ["split"], RemoteOp.fetch "cache"]
    | none => []) ++
  ([RemoteOp.register "origin" config.ProjectUrl.url ["heads", "tags"], RemoteOp.fetch "origin"] ++
    config.Splits.flatMap
      (fun split => split.Targets.map (fun t => RemoteOp.register t t ["heads", "tags"])))

/-- A configuration without cache whose only target is the literal `cache`. -/
def cacheTargetConfig : Config :=
  ⟨none, ⟨"https://example/proj.git", "https://example/proj.git", false⟩, [⟨["cache"]⟩]⟩

/-- A configuration with a local cache and two targets. -/
def cachedConfig : Config :=
  ⟨some ⟨"file:///var/cache/split", "/var/cache/split", true⟩,
    ⟨"https://example/proj.git", "https://example/proj.git", false⟩,
    [⟨["git@host:t1.git", "git@host:t2.git"]⟩]⟩

/-- An environment in which every call succeeds but `Flush`. -/
def flushFailEnv : Env :=
  ⟨.ok "/tmp/gitsplit_1", fun q => .ok ⟨q⟩, fun _ _ => none, fun q => .ok ⟨q⟩,
    fun q => .ok ⟨q⟩, fun _ => false, fun q => .ok ⟨q⟩, fun _ => none,
    fun _ => some (GoError.new "flush failed")⟩

/-- An environment in which every call succeeds but `Fetch`. -/
def fetchFailEnv : Env :=
  ⟨.ok "/tmp/gitsplit_1", fun q => .ok ⟨q⟩, fun _ _ => none, fun q => .ok ⟨q⟩,
    fun q => .ok ⟨q⟩, fun _ => false, fun q => .ok ⟨q⟩,
    fun _ => some (GoError.new "fetch failed"), fun _ => none⟩

/-- An environment in which the cache path cannot be made a repository. -/
def initFailEnv : Env :=
  ⟨.ok "/tmp/gitsplit_1", fun _ => .error (GoError.new "permission denied"), fun _ _ => none,
    fun q => .ok ⟨q⟩, fun q => .ok ⟨q⟩, fun _ => false,
    fun _ => .error (GoError.new "permission denied"), fun _ => none, fun _ => none⟩

/-- An environment in which the copy of the cache fails. -/
def copyFailEnv : Env :=
  ⟨.ok "/tmp/gitsplit_1", fun q => .ok ⟨q⟩, fun _ _ => some (GoError.new "disk full"),
    fun q => .ok ⟨q⟩, fun q => .ok ⟨q⟩, fun _ => false, fun q => .ok ⟨q⟩, fun _ => none,
    fun _ => none⟩

/-- Whether an event is a call of `git.InitRepository`. -/
def Event.isInitRepository : Event → Bool
  | .initRepository _ _ _ => true
  | _ => false

/-- Whether an event is a call of `Flush`. -/
def Event.isFlush : Event → Bool
  | .flush _ => true
  | _ => false

/-- Whether an event is a `Fetch` on the remote of the given name. -/
def Event.isFetchOf (n : String) : Event → Bool
  | .fetch m _ => m == n
  | _ => false

/-- The environment with another outcome for `Fetch`, the rest unchanged. -/
def Env.withFetch (env : Env) (f : GitRemote → Option GoError) : Env :=
  ⟨env.tempDir, env.initCache, env.copy, env.openRepository, env.initFresh, env.fileExists,
    env.initBootstrap, f, env.flush⟩

/-- The collection lines 101–110 build from a collection and a configuration,
without the trace. -/
def registerRemotes (p : ReAddPolicy) (c : GitRemoteCollection) (config : Config) :
    GitRemoteCollection :=
  (allTargets config.Splits).foldl (fun acc t => (acc.Add p t t ["heads", "tags"]).2)
    ((match config.CacheUrl with
      | some u => (c.Add p "cache" u.url ["split"]).2
      | none => c).Add p "origin" config.ProjectUrl.url ["heads", "tags"]).2

/-- A list of targets without the ones in `seen` and without repeats: the first
occurrence of a target is kept, the later ones are removed. -/
def dedupTargets (seen : List String) : List String → List String
  | [] => []
  | t :: rest =>
    if t ∈ seen then dedupTargets seen rest else t :: dedupTargets (t :: seen) rest

/-- The splits with the repeated targets removed, within a split and across
splits; `seen` holds the targets of the splits before. -/
def dedupSplits (seen : List String) : List Split → List Split
  | [] => []
  | sp :: rest =>
    ⟨dedupTargets seen sp.Targets⟩ :: dedupSplits (sp.Targets.reverse ++ seen) rest

/-- The configuration with the repeated occurrences of targets removed. -/
def dedupConfig (config : Config) : Config :=
  ⟨config.CacheUrl, config.ProjectUrl, dedupSplits [] config.Splits⟩

/-- A target is settled in a collection when registering it once more changes
nothing: it is present, and under the replacing policy the remote under its
name is the target remote already. -/
def Settled (p : ReAddPolicy) (t : String) (c : GitRemoteCollection) : Prop :=
  t ∈ c.names ∧
    (p = ReAddPolicy.replace → ∀ x ∈ c.items, x.name = t → x = ⟨t, t, ["heads", "tags"]⟩)

/-- A configuration with a local cache in which a target is listed twice. -/
def cachedRepeatedConfig : Config :=
  ⟨some ⟨"file:///var/cache/split", "/var/cache/split", true⟩,
    ⟨"https://example/proj.git", "https://example/proj.git", false⟩,
    [⟨["git@host:t1.git", "git@host:t1.git"]⟩]⟩

/-! ## Lemmas -/

theorem find_name_none {items : List GitRemote} {n : String}
    (h : items.find? (fun x => x.name == n) = none) : n ∉ items.map GitRemote.name := by
  intro hm
  obtain ⟨x, hx, hxn⟩ := List.mem_map.mp hm
  have := List.find?_eq_none.mp h x hx
  simp [hxn] at this

theorem find_name_some {items : List GitRemote} {n : String} {old : GitRemote}
    (h : items.find? (fun x => x.name == n) = some old) :
    old ∈ items ∧ old.name = n := by
  refine ⟨List.mem_of_find?_eq_some h, ?_⟩
  have := List.find?_some h
  simpa using this

theorem Add_names (p : ReAddPolicy) (c : GitRemoteCollection) (n u : String) (r : List String) :
    (c.Add p n u r).2.names = insertName c.names n := by
  unfold GitRemoteCollection.Add insertName GitRemoteCollection.names
  split
  · next h =>
    have := find_name_none h
    simp [this]
  · next old h =>
    obtain ⟨hm, hn⟩ := find_name_some h
    have hin : n ∈ c.items.map GitRemote.name := List.mem_map.mpr ⟨old, hm, hn⟩
    cases p
    · simp only [hin, if_true, List.map_map]
      apply List.map_congr_left
      intro x _
      by_cases hx : x.name = n <;> simp [hx]
    · simp [hin]

theorem Add_fst_name (p : ReAddPolicy) (c : GitRemoteCollection) (n u : String)
    (r : List String) : (c.Add p n u r).1.name = n := by
  unfold GitRemoteCollection.Add
  split
  · rfl
  · next old h =>
    cases p
    · rfl
    · exact (find_name_some h).2

theorem Get_ok_iff (c : GitRemoteCollection) (n : String) :
    (∃ r, c.Get n = .ok r) ↔ n ∈ c.names := by
  unfold GitRemoteCollection.Get GitRemoteCollection.names
  split
  · next r h =>
    obtain ⟨hm, hn⟩ := find_name_some h
    exact ⟨fun _ => List.mem_map.mpr ⟨r, hm, hn⟩, fun _ => ⟨r, rfl⟩⟩
  · next h =>
    constructor
    · rintro ⟨r, hr⟩
      cases hr
    · intro hm
      exact absurd hm (find_name_none h)

theorem Get_error_iff (c : GitRemoteCollection) (n : String) :
    (∃ e, c.Get n = .error e) ↔ n ∉ c.names := by
  rw [← Get_ok_iff]
  cases h : c.Get n with
  | ok r => simp
  | error e => simp

theorem mem_insertName (ns : List String) (n m : String) :
    m ∈ insertName ns n ↔ m ∈ ns ∨ m = n := by
  unfold insertName
  split
  · next h =>
    constructor
    · exact Or.inl
    · rintro (h1 | h1)
      · exact h1
      · exact h1 ▸ h
  · simp

theorem nodup_insertName (ns : List String) (n : String) (h : ns.Nodup) :
    (insertName ns n).Nodup := by
  unfold insertName
  split
  · exact h
  · next hn =>
    rw [List.nodup_append]
    refine ⟨h, List.nodup_singleton n, ?_⟩
    intro a ha hb
    simp at hb
    exact hn (hb ▸ ha)

theorem mem_foldl_insertName (L : List String) (ns : List String) (m : String) :
    m ∈ L.foldl insertName ns ↔ m ∈ ns ∨ m ∈ L := by
  induction L generalizing ns with
  | nil => simp
  | cons t L ih =>
    simp only [List.foldl_cons, ih, mem_insertName, List.mem_cons]
    tauto

theorem nodup_foldl_insertName (L : List String) (ns : List String) (h : ns.Nodup) :
    (L.foldl insertName ns).Nodup := by
  induction L generalizing ns with
  | nil => simpa using h
  | cons t L ih => exact ih _ (nodup_insertName ns t h)

theorem addTargetList_append (p : ReAddPolicy) (s : St) (L M : List String) :
    addTargetList p s (L ++ M) = addTargetList p (addTargetList p s L) M := by
  unfold addTargetList
  rw [List.foldl_append]

theorem addTargets_eq (p : ReAddPolicy) (s : St) (splits : List Split) :
    addTargets p s splits = addTargetList p s (allTargets splits) := by
  induction splits generalizing s with
  | nil => rfl
  | cons sp rest ih =>
    have h1 : addTargets p s (sp :: rest) = addTargets p (addTargetList p s sp.Targets) rest := rfl
    have h2 : allTargets (sp :: rest) = sp.Targets ++ allTargets rest := by
      simp [allTargets]
    rw [h1, h2, addTargetList_append, ih]

theorem addTargetList_trace (p : ReAddPolicy) (s : St) (L : List String) :
    (addTargetList p s L).trace =
      s.trace ++ L.map (fun t => Event.add t t ["heads", "tags"]) := by
  induction L generalizing s with
  | nil => simp [addTargetList]
  | cons t L ih =>
    have h1 : addTargetList p s (t :: L) =
        addTargetList p (addRemote p s t t ["heads", "tags"]).2 L := rfl
    rw [h1, ih]
    simp [addRemote]

theorem addTargetList_remotes (p : ReAddPolicy) (s : St) (L : List String) :
    (addTargetList p s L).remotes =
      L.foldl (fun c t => (c.Add p t t ["heads", "tags"]).2) s.remotes := by
  induction L generalizing s with
  | nil => rfl
  | cons t L ih =>
    have h1 : addTargetList p s (t :: L) =
        addTargetList p (addRemote p s t t ["heads", "tags"]).2 L := rfl
    rw [h1, ih]
    rfl

theorem foldl_Add_names (p : ReAddPolicy) (c : GitRemoteCollection) (L : List String) :
    (L.foldl (fun c t => (c.Add p t t ["heads", "tags"]).2) c).names =
      L.foldl insertName c.names := by
  induction L generalizing c with
  | nil => rfl
  | cons t L ih =>
    simp only [List.foldl_cons]
    rw [ih, Add_names]

theorem addCache_names (p : ReAddPolicy) (env : Env) (config : Config) (s : St) :
    (addCache p env config s).remotes.names = cacheNames config s.remotes.names := by
  unfold addCache cacheNames
  cases config.CacheUrl with
  | none => rfl
  | some c => simp [fetchRemote, addRemote, Add_names]

theorem addOrigin_names (p : ReAddPolicy) (env : Env) (config : Config) (s : St) :
    (addOrigin p env config s).remotes.names = insertName s.remotes.names "origin" := by
  simp [addOrigin, fetchRemote, addRemote, Add_names]

theorem registerAll_names (p : ReAddPolicy) (env : Env) (w : WorkingSpace) :
    (registerAll p env w).remotes.names =
      (allTargets w.config.Splits).foldl insertName
        (insertName (cacheNames w.config w.remotes.names) "origin") := by
  unfold registerAll
  rw [addTargets_eq, addTargetList_remotes, foldl_Add_names, addOrigin_names, addCache_names]

theorem Init_of_bootstrap_none (p : ReAddPolicy) (env : Env) (w : WorkingSpace)
    (h : (bootstrap env w.config).2 = none) :
    Init p env w =
      ⟨⟨w.config, w.repository, (registerAll p env w).remotes⟩,
        env.flush (registerAll p env w).remotes.items,
        (registerAll p env w).trace ++
          [Event.spawnClean,
            Event.flush (env.flush (registerAll p env w).remotes.items).isNone]⟩ := by
  unfold Init
  rw [h]

theorem Init_of_bootstrap_some (p : ReAddPolicy) (env : Env) (w : WorkingSpace) (e : GoError)
    (h : (bootstrap env w.config).2 = some e) :
    Init p env w = ⟨w, some e, (bootstrap env w.config).1⟩ := by
  unfold Init
  rw [h]

theorem bootstrap_none_of_Init_ok (p : ReAddPolicy) (env : Env) (w : WorkingSpace)
    (h : (Init p env w).err = none) : (bootstrap env w.config).2 = none := by
  cases hb : (bootstrap env w.config).2 with
  | none => rfl
  | some e =>
    rw [Init_of_bootstrap_some p env w e hb] at h
    cases h

theorem registerAll_remotes (p : ReAddPolicy) (env : Env) (w : WorkingSpace) :
    (registerAll p env w).remotes = registerRemotes p w.remotes w.config := by
  unfold registerAll registerRemotes
  rw [addTargets_eq, addTargetList_remotes]
  congr 1
  unfold addOrigin addCache
  cases w.config.CacheUrl with
  | none => rfl
  | some c => rfl

theorem bootstrap_withFetch (env : Env) (f : GitRemote → Option GoError) (config : Config) :
    bootstrap (env.withFetch f) config = bootstrap env config := rfl

theorem addCache_events (p : ReAddPolicy) (env : Env) (config : Config) (s : St) :
    ∃ b : Bool, (addCache p env config s).trace =
      s.trace ++
        (match config.CacheUrl with
          | some c => [Event.add "cache" c.url ["split"], Event.fetch "cache" b]
          | none => []) := by
  unfold addCache
  cases config.CacheUrl with
  | none => exact ⟨true, by simp⟩
  | some c =>
    exact ⟨(env.fetch (s.remotes.Add p "cache" c.url ["split"]).1).isNone, by
      simp [fetchRemote, addRemote, Add_fst_name]⟩

theorem addOrigin_events (p : ReAddPolicy) (env : Env) (config : Config) (s : St) :
    ∃ b : Bool, (addOrigin p env config s).trace =
      s.trace ++
        [Event.add "origin" config.ProjectUrl.url ["heads", "tags"], Event.fetch "origin" b] := by
  unfold addOrigin
  exact ⟨(env.fetch (s.remotes.Add p "origin" config.ProjectUrl.url ["heads", "tags"]).1).isNone, by
    simp [fetchRemote, addRemote, Add_fst_name]⟩

theorem registerAll_trace (p : ReAddPolicy) (env : Env) (w : WorkingSpace) :
    ∃ b1 b2 : Bool, (registerAll p env w).trace =
      (bootstrap env w.config).1 ++
        ((match w.config.CacheUrl with
          | some c => [Event.add "cache" c.url ["split"], Event.fetch "cache" b1]
          | none => []) ++
        ([Event.add "origin" w.config.ProjectUrl.url ["heads", "tags"], Event.fetch "origin" b2] ++
          (allTargets w.config.Splits).map (fun t => Event.add t t ["heads", "tags"]))) := by
  obtain ⟨b1, h1⟩ := addCache_events p env w.config ⟨w.remotes, (bootstrap env w.config).1⟩
  obtain ⟨b2, h2⟩ := addOrigin_events p env w.config
    (addCache p env w.config ⟨w.remotes, (bootstrap env w.config).1⟩)
  refine ⟨b1, b2, ?_⟩
  unfold registerAll
  rw [addTargets_eq, addTargetList_trace, h2, h1]
  simp only [List.append_assoc]

theorem countP_targets (q : Event → Bool) (L : List String)
    (hq : ∀ t, q (Event.add t t ["heads", "tags"]) = false) :
    (L.map (fun t => Event.add t t ["heads", "tags"])).countP q = 0 := by
  induction L with
  | nil => rfl
  | cons t L ih => simp [List.countP_cons, ih, hq]

theorem bootstrap_counts (env : Env) (config : Config) :
    (bootstrap env config).1.countP Event.isInitRepository ≤ 1 ∧
    (bootstrap env config).1.countP Event.isFlush = 0 ∧
    ∀ n, (bootstrap env config).1.countP (Event.isFetchOf n) = 0 := by
  unfold bootstrap
  cases config.CacheUrl with
  | none => simp
  | some c =>
    simp only
    split
    · split <;> simp [List.countP_cons, Event.isInitRepository, Event.isFlush, Event.isFetchOf]
    · simp

theorem bootstrap_of_pass (env : Env) (config : Config)
    (h : ∀ c, config.CacheUrl = some c →
      env.fileExists c.schemelessUrl = true ∨ ∃ r, env.initBootstrap c.schemelessUrl = .ok r) :
    (bootstrap env config).2 = none := by
  unfold bootstrap
  cases hc : config.CacheUrl with
  | none => rfl
  | some c =>
    rcases h c hc with hf | ⟨r, hr⟩
    · simp [hf]
    · by_cases hf : env.fileExists c.schemelessUrl = true
      · simp [hf]
      · simp [hf, hr]

theorem bootstrap_of_fail (env : Env) (config : Config) (c : GitUrl) (e : GoError)
    (hc : config.CacheUrl = some c) (hf : env.fileExists c.schemelessUrl = false)
    (hi : env.initBootstrap c.schemelessUrl = .error e) :
    bootstrap env config =
      ([Event.initRepository c.schemelessUrl true false],
        some (GoError.wrap e "failed to initialize working space")) := by
  unfold bootstrap
  rw [hc]
  simp [hf, hi]

theorem dedupTargets_cons_mem {seen : List String} {t : String} (L : List String)
    (h : t ∈ seen) : dedupTargets seen (t :: L) = dedupTargets seen L := by
  rw [dedupTargets, if_pos h]

theorem dedupTargets_cons_not_mem {seen : List String} {t : String} (L : List String)
    (h : t ∉ seen) : dedupTargets seen (t :: L) = t :: dedupTargets (t :: seen) L := by
  rw [dedupTargets, if_neg h]

theorem dedupTargets_congr (L : List String) (s1 s2 : List String)
    (h : ∀ x, x ∈ s1 ↔ x ∈ s2) : dedupTargets s1 L = dedupTargets s2 L := by
  induction L generalizing s1 s2 with
  | nil => rfl
  | cons t L ih =>
    by_cases ht : t ∈ s1
    · rw [dedupTargets_cons_mem L ht, dedupTargets_cons_mem L ((h t).mp ht)]
      exact ih s1 s2 h
    · rw [dedupTargets_cons_not_mem L ht,
        dedupTargets_cons_not_mem L (fun h2 => ht ((h t).mpr h2))]
      congr 1
      apply ih
      intro x
      simp only [List.mem_cons, h x]

theorem dedupTargets_append (L M : List String) (seen : List String) :
    dedupTargets seen (L ++ M) =
      dedupTargets seen L ++ dedupTargets (L.reverse ++ seen) M := by
  induction L generalizing seen with
  | nil => rfl
  | cons t L ih =>
    rw [List.cons_append]
    by_cases ht : t ∈ seen
    · rw [dedupTargets_cons_mem _ ht, dedupTargets_cons_mem _ ht, ih]
      congr 1
      apply dedupTargets_congr
      intro x
      simp only [List.reverse_cons, List.mem_append, List.mem_reverse, List.mem_singleton]
      constructor
      · rintro (h | h)
        · exact Or.inl (Or.inl h)
        · exact Or.inr h
      · rintro ((h | h) | h)
        · exact Or.inl h
        · exact Or.inr (h ▸ ht)
        · exact Or.inr h
    · rw [dedupTargets_cons_not_mem _ ht, dedupTargets_cons_not_mem _ ht, ih]
      simp

theorem allTargets_dedupSplits (splits : List Split) (seen : List String) :
    allTargets (dedupSplits seen splits) = dedupTargets seen (allTargets splits) := by
  induction splits generalizing seen with
  | nil => rfl
  | cons sp rest ih =>
    have h1 : allTargets (sp :: rest) = sp.Targets ++ allTargets rest := by simp [allTargets]
    have h2 : allTargets (dedupSplits seen (sp :: rest)) =
        dedupTargets seen sp.Targets ++
          allTargets (dedupSplits (sp.Targets.reverse ++ seen) rest) := by
      simp [dedupSplits, allTargets]
    rw [h1, h2, ih, dedupTargets_append]

theorem mem_dedupTargets (L : List String) (seen : List String) (t : String) :
    t ∈ dedupTargets seen L ↔ t ∈ L ∧ t ∉ seen := by
  induction L generalizing seen with
  | nil => simp [dedupTargets]
  | cons a L ih =>
    by_cases ha : a ∈ seen
    · rw [dedupTargets_cons_mem _ ha, ih]
      constructor
      · rintro ⟨h1, h2⟩
        exact ⟨List.mem_cons_of_mem _ h1, h2⟩
      · rintro ⟨h1, h2⟩
        rcases List.mem_cons.mp h1 with h | h
        · exact absurd (h ▸ ha) h2
        · exact ⟨h, h2⟩
    · rw [dedupTargets_cons_not_mem _ ha, List.mem_cons, ih]
      simp only [List.mem_cons, not_or]
      constructor
      · rintro (h | ⟨h1, h2, h3⟩)
        · exact ⟨Or.inl h, h ▸ ha⟩
        · exact ⟨Or.inr h1, h3⟩
      · rintro ⟨h1 | h1, h2⟩
        · exact Or.inl h1
        · by_cases hta : t = a
          · exact Or.inl hta
          · exact Or.inr ⟨h1, hta, h2⟩

theorem nodup_dedupTargets (L : List String) (seen : List String) :
    (dedupTargets seen L).Nodup := by
  induction L generalizing seen with
  | nil => simp [dedupTargets]
  | cons a L ih =>
    by_cases ha : a ∈ seen
    · rw [dedupTargets_cons_mem _ ha]
      exact ih seen
    · rw [dedupTargets_cons_not_mem _ ha, List.nodup_cons]
      refine ⟨?_, ih _⟩
      rw [mem_dedupTargets]
      simp

theorem settled_fix (p : ReAddPolicy) (t : String) (c : GitRemoteCollection)
    (h : Settled p t c) : (c.Add p t t ["heads", "tags"]).2 = c := by
  obtain ⟨hn, hr⟩ := h
  unfold GitRemoteCollection.Add
  split
  · next hf => exact absurd hn (find_name_none hf)
  · next old hf =>
    cases p with
    | noop => rfl
    | replace =>
      simp only
      have hmap : c.items.map
          (fun x => if x.name == t then (⟨t, t, ["heads", "tags"]⟩ : GitRemote) else x) =
          c.items := by
        conv_rhs => rw [← List.map_id c.items]
        apply List.map_congr_left
        intro x hx
        by_cases hxn : x.name = t
        · simp [hxn, (hr rfl x hx hxn).symm]
        · simp [hxn]
      rw [hmap]

theorem settled_add (p : ReAddPolicy) (t t2 : String) (c : GitRemoteCollection)
    (h : t2 = t ∨ Settled p t c) : Settled p t (c.Add p t2 t2 ["heads", "tags"]).2 := by
  constructor
  · rw [Add_names, mem_insertName]
    rcases h with h | h
    · exact Or.inr h.symm
    · exact Or.inl h.1
  · intro hp x hx hxn
    subst hp
    unfold GitRemoteCollection.Add at hx
    split at hx
    · next hf =>
      simp only [List.mem_append, List.mem_singleton] at hx
      rcases hx with hx | hx
      · rcases h with h | h
        · subst h
          exact absurd (List.mem_map.mpr ⟨x, hx, hxn⟩) (find_name_none hf)
        · exact h.2 rfl x hx hxn
      · subst hx
        simp only at hxn
        subst hxn
        rfl
    · next old hf =>
      simp only [List.mem_map] at hx
      obtain ⟨y, hy, hyx⟩ := hx
      by_cases hyn : y.name = t2
      · simp [hyn] at hyx
        subst hyx
        simp only at hxn
        subst hxn
        rfl
      · simp [hyn] at hyx
        subst hyx
        rcases h with h | h
        · exact absurd (hxn.trans h.symm) hyn
        · exact h.2 rfl y hy hxn

theorem foldl_Add_dedup (p : ReAddPolicy) (L : List String) (seen : List String)
    (c : GitRemoteCollection) (h : ∀ t ∈ seen, Settled p t c) :
    (dedupTargets seen L).foldl (fun acc t => (acc.Add p t t ["heads", "tags"]).2) c =
      L.foldl (fun acc t => (acc.Add p t t ["heads", "tags"]).2) c := by
  induction L generalizing seen c with
  | nil => rfl
  | cons a L ih =>
    by_cases ha : a ∈ seen
    · rw [dedupTargets_cons_mem _ ha, List.foldl_cons, settled_fix p a c (h a ha)]
      exact ih seen c h
    · rw [dedupTargets_cons_not_mem _ ha, List.foldl_cons, List.foldl_cons]
      apply ih
      intro t ht
      rcases List.mem_cons.mp ht with h1 | h1
      · exact settled_add p t a c (Or.inl h1.symm)
      · exact settled_add p t a c (Or.inr (h t h1))

theorem registerRemotes_dedup (p : ReAddPolicy) (c : GitRemoteCollection) (config : Config) :
    registerRemotes p c (dedupConfig config) = registerRemotes p c config := by
  unfold registerRemotes dedupConfig
  simp only
  rw [allTargets_dedupSplits]
  apply foldl_Add_dedup
  intro t ht
  cases ht

theorem bootstrap_dedup (env : Env) (config : Config) :
    bootstrap env (dedupConfig config) = bootstrap env config := rfl

theorem remoteOps_append (a b : List Event) : remoteOps (a ++ b) = remoteOps a ++ remoteOps b := by
  simp [remoteOps, List.filterMap_append]

theorem remoteOps_bootstrap (env : Env) (config : Config) :
    remoteOps (bootstrap env config).1 = [] := by
  unfold bootstrap
  cases config.CacheUrl with
  | none => rfl
  | some c =>
    simp only
    split
    · split <;> rfl
    · rfl

theorem remoteOps_targets (L : List String) :
    remoteOps (L.map (fun t => Event.add t t ["heads", "tags"])) =
      L.map (fun t => RemoteOp.register t t ["heads", "tags"]) := by
  induction L with
  | nil => rfl
  | cons t L ih =>
    simp only [List.map_cons]
    rw [← ih]
    rfl

theorem addCache_trace (p : ReAddPolicy) (env : Env) (config : Config) (s : St) :
    remoteOps (addCache p env config s).trace =
      remoteOps s.trace ++
        (match config.CacheUrl with
          | some c => [RemoteOp.register "cache" c.url ["split"], RemoteOp.fetch "cache"]
          | none => []) := by
  unfold addCache
  cases config.CacheUrl with
  | none => simp
  | some c =>
    simp [fetchRemote, addRemote, remoteOps_append, Add_fst_name, remoteOps, Event.toRemoteOp]

theorem addOrigin_trace (p : ReAddPolicy) (env : Env) (config : Config) (s : St) :
    remoteOps (addOrigin p env config s).trace =
      remoteOps s.trace ++
        [RemoteOp.register "origin" config.ProjectUrl.url ["heads", "tags"],
          RemoteOp.fetch "origin"] := by
  simp [addOrigin, fetchRemote, addRemote, remoteOps_append, Add_fst_name, remoteOps,
    Event.toRemoteOp]

theorem flatMap_targets (splits : List Split) :
    splits.flatMap (fun split => split.Targets.map (fun t => RemoteOp.register t t ["heads", "tags"]))
      = (allTargets splits).map (fun t => RemoteOp.register t t ["heads", "tags"]) := by
  induction splits with
  | nil => rfl
  | cons sp rest ih => simp [allTargets, List.flatMap_cons, List.map_flatMap]

theorem registerAll_remoteOps (p : ReAddPolicy) (env : Env) (w : WorkingSpace) :
    remoteOps (registerAll p env w).trace = specRemoteOps w.config := by
  unfold registerAll specRemoteOps
  rw [addTargets_eq, addTargetList_trace, remoteOps_append, remoteOps_targets, addOrigin_trace,
    addCache_trace, remoteOps_bootstrap, flatMap_targets]
  simp

theorem mem_allTargets (splits : List Split) (n : String) :
    n ∈ allTargets splits ↔ ∃ s ∈ splits, n ∈ s.Targets := by
  simp [allTargets, List.mem_flatMap]

theorem Init_remoteOps_of_bootstrap_none (p : ReAddPolicy) (env : Env) (w : WorkingSpace)
    (hb : (bootstrap env w.config).2 = none) :
    remoteOps (Init p env w).trace = specRemoteOps w.config := by
  rw [Init_of_bootstrap_none p env w hb]
  simp only [remoteOps_append, registerAll_remoteOps]
  simp [remoteOps, Event.toRemoteOp]

/-! ## The claims -/

/-- C1: on a working space whose remote collection is empty, when `Init` returns
no error, `Remotes().Get(n)` resolves exactly for `n = "origin"`, for
`n = "cache"` when a cache is configured, and for the targets of the splits;
with no cache and one split of targets `git@host:t1.git`, `git@host:t2.git` the
names present are `origin`, `git@host:t1.git`, `git@host:t2.git` and no other.
Holds for both re-registration policies. -/
theorem C1_init_resolves_exactly (p : ReAddPolicy) (env : Env) (w : WorkingSpace)
    (h0 : w.remotes.items = []) (herr : (Init p env w).err = none) :
    (∀ n : String, (∃ r, (Init p env w).ws.remotes.Get n = .ok r) ↔
      (n = "origin" ∨ (n = "cache" ∧ w.config.CacheUrl ≠ none) ∨
        ∃ s ∈ w.config.Splits, n ∈ s.Targets)) ∧
    (w.config.CacheUrl = none →
      w.config.Splits = [⟨["git@host:t1.git", "git@host:t2.git"]⟩] →
      (Init p env w).ws.remotes.names = ["origin", "git@host:t1.git", "git@host:t2.git"]) := by
  have hb := bootstrap_none_of_Init_ok p env w herr
  have hn : (Init p env w).ws.remotes.names =
      (allTargets w.config.Splits).foldl insertName
        (insertName (cacheNames w.config w.remotes.names) "origin") := by
    rw [Init_of_bootstrap_none p env w hb]
    exact registerAll_names p env w
  have hempty : w.remotes.names = [] := by simp [GitRemoteCollection.names, h0]
  constructor
  · intro n
    rw [Get_ok_iff, hn, mem_foldl_insertName, mem_insertName, mem_allTargets, hempty]
    unfold cacheNames
    cases hc : w.config.CacheUrl with
    | none => simp
    | some c => simp [mem_insertName]; tauto
  · intro hc hs
    rw [hn, hempty, hs]
    unfold cacheNames
    rw [hc]
    decide

/-- C1, at the example configuration in an environment where every call
succeeds. -/
theorem C1_init_resolves_exactly_witness :
    exampleWorkingSpace.remotes.items = [] ∧
    (Init .replace okEnv exampleWorkingSpace).err = none ∧
    (∀ n : String, (∃ r, (Init .replace okEnv exampleWorkingSpace).ws.remotes.Get n = .ok r) ↔
      (n = "origin" ∨ (n = "cache" ∧ exampleWorkingSpace.config.CacheUrl ≠ none) ∨
        ∃ s ∈ exampleWorkingSpace.config.Splits, n ∈ s.Targets)) ∧
    (Init .replace okEnv exampleWorkingSpace).ws.remotes.names =
      ["origin", "git@host:t1.git", "git@host:t2.git"] :=
  ⟨rfl, by decide,
    (C1_init_resolves_exactly .replace okEnv exampleWorkingSpace rfl (by decide)).1,
    (C1_init_resolves_exactly .replace okEnv exampleWorkingSpace rfl (by decide)).2 rfl rfl⟩

/-- C2, as stated, fails: with a cache configured whose path does not exist
and cannot be made a repository, `Init` returns at line 97 and issues no remote
operation, while the claim lists four for this configuration. -/
theorem C2_counterexample :
    remoteOps (Init .replace initFailEnv (freshWorkingSpace cachedConfig ⟨"/tmp/gitsplit_1"⟩)).trace
      = [] ∧
    (Init .replace initFailEnv (freshWorkingSpace cachedConfig ⟨"/tmp/gitsplit_1"⟩)).trace =
      [Event.initRepository "/var/cache/split" true false] ∧
    specRemoteOps cachedConfig =
      [RemoteOp.register "cache" "file:///var/cache/split" ["split"], RemoteOp.fetch "cache",
        RemoteOp.register "origin" "https://example/proj.git" ["heads", "tags"],
        RemoteOp.fetch "origin",
        RemoteOp.register "git@host:t1.git" "git@host:t1.git" ["heads", "tags"],
        RemoteOp.register "git@host:t2.git" "git@host:t2.git" ["heads", "tags"]] ∧
    remoteOps (Init .replace initFailEnv (freshWorkingSpace cachedConfig ⟨"/tmp/gitsplit_1"⟩)).trace
      ≠ specRemoteOps cachedConfig := by
  decide

/-- C2, amended: unless the bootstrap of the cache path fails (a cache is
configured, its path does not exist and `InitRepository` on it fails), the
remote operations `Init` issues are, in order, the registration and fetch of
`cache` (URL `CacheUrl.Url()`, namespace `split`) when a cache is configured,
the registration and fetch of `origin` (URL `ProjectUrl.Url()`, namespaces
`heads`, `tags`), and one registration, without fetch, per target of every
split in configuration order (name and URL the target, namespaces `heads`,
`tags`), and no other; when the bootstrap fails, `Init` issues none. -/
theorem C2_init_remote_operations (p : ReAddPolicy) (env : Env) (w : WorkingSpace) :
    ((∀ c, w.config.CacheUrl = some c →
        env.fileExists c.schemelessUrl = true ∨
          ∃ r, env.initBootstrap c.schemelessUrl = .ok r) →
      remoteOps (Init p env w).trace = specRemoteOps w.config) ∧
    (∀ c e, w.config.CacheUrl = some c → env.fileExists c.schemelessUrl = false →
      env.initBootstrap c.schemelessUrl = .error e →
      remoteOps (Init p env w).trace = []) := by
  constructor
  · intro h
    exact Init_remoteOps_of_bootstrap_none p env w (bootstrap_of_pass env w.config h)
  · intro c e hc hf hi
    have hb := bootstrap_of_fail env w.config c e hc hf hi
    rw [Init_of_bootstrap_some p env w _ (by rw [hb]), hb]
    rfl

/-- C2 amended, at a configuration with a cache and two targets, where every
call succeeds: the six operations, in order. -/
theorem C2_init_remote_operations_witness :
    (∀ c, (freshWorkingSpace cachedConfig ⟨"/tmp/gitsplit_1"⟩).config.CacheUrl = some c →
        okEnv.fileExists c.schemelessUrl = true ∨
          ∃ r, okEnv.initBootstrap c.schemelessUrl = .ok r) ∧
    remoteOps (Init .replace okEnv (freshWorkingSpace cachedConfig ⟨"/tmp/gitsplit_1"⟩)).trace =
      [RemoteOp.register "cache" "file:///var/cache/split" ["split"], RemoteOp.fetch "cache",
        RemoteOp.register "origin" "https://example/proj.git" ["heads", "tags"],
        RemoteOp.fetch "origin",
        RemoteOp.register "git@host:t1.git" "git@host:t1.git" ["heads", "tags"],
        RemoteOp.register "git@host:t2.git" "git@host:t2.git" ["heads", "tags"]] :=
  ⟨fun c _ => Or.inr ⟨⟨c.schemelessUrl⟩, rfl⟩,
    (C2_init_remote_operations .replace okEnv
      (freshWorkingSpace cachedConfig ⟨"/tmp/gitsplit_1"⟩)).1
      (fun c _ => Or.inr ⟨⟨c.schemelessUrl⟩, rfl⟩)⟩

/-- C3, as stated, fails: with no cache configured and a split whose target is
the literal `cache`, `Init` on an empty collection registers a remote named
`cache`, and `Get("cache")` resolves afterwards. -/
theorem C3_counterexample :
    cacheTargetConfig.CacheUrl = none ∧
    (freshWorkingSpace cacheTargetConfig ⟨"/tmp/gitsplit_1"⟩).remotes.items = [] ∧
    Event.add "cache" "cache" ["heads", "tags"] ∈
      (Init .replace okEnv (freshWorkingSpace cacheTargetConfig ⟨"/tmp/gitsplit_1"⟩)).trace ∧
    (Init .replace okEnv (freshWorkingSpace cacheTargetConfig ⟨"/tmp/gitsplit_1"⟩)).ws.remotes.Get
      "cache" = .ok ⟨"cache", "cache", ["heads", "tags"]⟩ ∧
    (Init .noop okEnv (freshWorkingSpace cacheTargetConfig ⟨"/tmp/gitsplit_1"⟩)).ws.remotes.Get
      "cache" = .ok ⟨"cache", "cache", ["heads", "tags"]⟩ :=
  ⟨rfl, rfl, by decide, rfl, rfl⟩

/-- C3, amended: with no cache configured, `Init` registers a remote named
`cache` only when some split lists the literal target `cache`, and then as a
target remote (URL `cache`, namespaces `heads`, `tags`); after `Init` on an
empty collection a remote named `cache` is present exactly when some split
lists the target `cache`. Holds for both re-registration policies. -/
theorem C3_cache_remote_only_as_target (p : ReAddPolicy) (env : Env) (w : WorkingSpace)
    (hc : w.config.CacheUrl = none) :
    (∀ u r, RemoteOp.register "cache" u r ∈ remoteOps (Init p env w).trace →
      (∃ s ∈ w.config.Splits, "cache" ∈ s.Targets) ∧ u = "cache" ∧ r = ["heads", "tags"]) ∧
    (w.remotes.items = [] →
      ((∃ r, (Init p env w).ws.remotes.Get "cache" = .ok r) ↔
        ∃ s ∈ w.config.Splits, "cache" ∈ s.Targets)) := by
  have hb : (bootstrap env w.config).2 = none := by
    unfold bootstrap
    rw [hc]
  constructor
  · intro u r hmem
    rw [Init_remoteOps_of_bootstrap_none p env w hb] at hmem
    unfold specRemoteOps at hmem
    rw [hc, flatMap_targets] at hmem
    simp at hmem
    obtain ⟨a, ha, h1, h2, h3⟩ := hmem
    subst h1
    exact ⟨(mem_allTargets _ _).mp ha, h2.symm, h3.symm⟩
  · intro h0
    have hempty : w.remotes.names = [] := by simp [GitRemoteCollection.names, h0]
    rw [Get_ok_iff, Init_of_bootstrap_none p env w hb]
    simp only
    rw [registerAll_names, mem_foldl_insertName, mem_insertName, mem_allTargets, hempty]
    unfold cacheNames
    rw [hc]
    simp

/-- C3 amended, at the example configuration: no target is `cache`, and no
remote named `cache` is present after `Init`. -/
theorem C3_cache_remote_only_as_target_witness :
    exampleWorkingSpace.config.CacheUrl = none ∧
    exampleWorkingSpace.remotes.items = [] ∧
    (¬ ∃ s ∈ exampleWorkingSpace.config.Splits, "cache" ∈ s.Targets) ∧
    ¬ ∃ r, (Init .replace okEnv exampleWorkingSpace).ws.remotes.Get "cache" = .ok r :=
  ⟨rfl, rfl, by decide, fun h =>
    absurd (((C3_cache_remote_only_as_target .replace okEnv exampleWorkingSpace rfl).2 rfl).mp h)
      (by decide)⟩

/-- C4: `GetCachePool` returns the null pool and no error when no cache is
configured, whatever the remote collection holds; with a cache configured it
fails exactly when the collection has no remote named `cache` (the error of
`Get` wrapped with "failed to create cache pool"), and otherwise returns the
live pool made of the repository path and the remote registered as `cache`;
after an `Init` that returned no error, with a cache configured, it does not
fail. Holds for both re-registration policies. -/
theorem C4_get_cache_pool (p : ReAddPolicy) (env : Env) (w0 w : WorkingSpace) :
    (w.config.CacheUrl = none → GetCachePool w = .ok CachePool.null) ∧
    (w.config.CacheUrl ≠ none →
      ((∃ e, GetCachePool w = .error e) ↔ ∀ r ∈ w.remotes.items, r.name ≠ "cache") ∧
      (∀ e, GetCachePool w = .error e →
        ∃ cause, w.remotes.Get "cache" = .error cause ∧
          e = GoError.wrap cause "failed to create cache pool") ∧
      (∀ pool, GetCachePool w = .ok pool →
        ∃ r ∈ w.remotes.items, r.name = "cache" ∧ w.remotes.Get "cache" = .ok r ∧
          pool = CachePool.live w.repository.path r)) ∧
    (w0.config.CacheUrl ≠ none → (Init p env w0).err = none →
      ∃ r, GetCachePool (Init p env w0).ws = .ok (CachePool.live w0.repository.path r)) := by
  refine ⟨?_, ?_, ?_⟩
  · intro hc
    unfold GetCachePool
    rw [hc]
  · intro hc
    obtain ⟨c, hc⟩ := Option.ne_none_iff_exists'.mp hc
    have hnames : "cache" ∉ w.remotes.names ↔ ∀ r ∈ w.remotes.items, r.name ≠ "cache" := by
      simp [GitRemoteCollection.names]
    unfold GetCachePool
    rw [hc]
    simp only
    cases hg : w.remotes.Get "cache" with
    | error cause =>
      have hno : "cache" ∉ w.remotes.names := (Get_error_iff _ _).mp ⟨cause, hg⟩
      refine ⟨⟨fun _ => hnames.mp hno, fun _ => ⟨_, rfl⟩⟩, ?_, ?_⟩
      · intro e he
        cases he
        exact ⟨cause, rfl, rfl⟩
      · intro pool hp
        cases hp
    | ok r =>
      have hyes : "cache" ∈ w.remotes.names := (Get_ok_iff _ _).mp ⟨r, hg⟩
      refine ⟨⟨?_, fun h => absurd hyes (hnames.mpr h)⟩, ?_, ?_⟩
      · rintro ⟨e, he⟩
        cases he
      · intro e he
        cases he
      · intro pool hp
        cases hp
        unfold GitRemoteCollection.Get at hg
        split at hg
        · next r2 hf =>
          cases hg
          exact ⟨r, (find_name_some hf).1, (find_name_some hf).2, rfl, rfl⟩
        · cases hg
  · intro hc herr
    obtain ⟨c, hc⟩ := Option.ne_none_iff_exists'.mp hc
    have hb := bootstrap_none_of_Init_ok p env w0 herr
    have hin : "cache" ∈ (Init p env w0).ws.remotes.names := by
      rw [Init_of_bootstrap_none p env w0 hb]
      simp only
      rw [registerAll_names, mem_foldl_insertName, mem_insertName]
      unfold cacheNames
      rw [hc]
      simp [mem_insertName]
    obtain ⟨r, hr⟩ := (Get_ok_iff _ _).mpr hin
    refine ⟨r, ?_⟩
    have hcfg : (Init p env w0).ws.config = w0.config := by
      rw [Init_of_bootstrap_none p env w0 hb]
    have hrepo : (Init p env w0).ws.repository = w0.repository := by
      rw [Init_of_bootstrap_none p env w0 hb]
    unfold GetCachePool
    rw [hcfg, hc]
    simp only
    rw [hr, hrepo]

/-- C4, at a configuration with a cache, before and after `Init`. -/
theorem C4_get_cache_pool_witness :
    (freshWorkingSpace cachedConfig ⟨"/tmp/gitsplit_1"⟩).config.CacheUrl ≠ none ∧
    (Init .replace okEnv (freshWorkingSpace cachedConfig ⟨"/tmp/gitsplit_1"⟩)).err = none ∧
    GetCachePool (freshWorkingSpace cachedConfig ⟨"/tmp/gitsplit_1"⟩) =
      .error (GoError.wrap (GoError.new "remote not found") "failed to create cache pool") ∧
    GetCachePool exampleWorkingSpace = .ok CachePool.null ∧
    ∃ r, GetCachePool (Init .replace okEnv (freshWorkingSpace cachedConfig ⟨"/tmp/gitsplit_1"⟩)).ws =
      .ok (CachePool.live "/tmp/gitsplit_1" r) :=
  ⟨by decide, by decide, rfl,
    (C4_get_cache_pool .replace okEnv (freshWorkingSpace cachedConfig ⟨"/tmp/gitsplit_1"⟩)
      exampleWorkingSpace).1 rfl,
    (C4_get_cache_pool .replace okEnv (freshWorkingSpace cachedConfig ⟨"/tmp/gitsplit_1"⟩)
      exampleWorkingSpace).2.2 (by decide) (by decide)⟩

/-- C5, as stated, fails: when `Flush` fails, `Close` reaches `log.Fatal`, the
process exits, and neither `os.RemoveAll` nor `Free` is called. -/
theorem C5_counterexample :
    Close flushFailEnv exampleWorkingSpace =
      (Ending.exited, [Event.flush false, Event.fatal (GoError.new "flush failed")]) ∧
    Event.removeAll exampleWorkingSpace.repository.path ∉
      (Close flushFailEnv exampleWorkingSpace).2 ∧
    Event.free exampleWorkingSpace.repository.path ∉
      (Close flushFailEnv exampleWorkingSpace).2 := by
  decide

/-- C5, amended: when `Flush` succeeds, `Close` removes the directory tree at
the repository path, then releases the handle, and returns; when `Flush`
fails, `Close` ends the process through `log.Fatal` with the flush error, and
nothing is removed or released. -/
theorem C5_close_removes_after_flush (env : Env) (w : WorkingSpace) :
    (env.flush w.remotes.items = none →
      Close env w =
        (Ending.returned,
          [Event.flush true, Event.removeAll w.repository.path, Event.free w.repository.path])) ∧
    (∀ e, env.flush w.remotes.items = some e →
      Close env w = (Ending.exited, [Event.flush false, Event.fatal e]) ∧
      (∀ path, Event.removeAll path ∉ (Close env w).2) ∧
      (∀ path, Event.free path ∉ (Close env w).2)) := by
  constructor
  · intro h
    unfold Close
    rw [h]
  · intro e h
    have hc : Close env w = (Ending.exited, [Event.flush false, Event.fatal e]) := by
      unfold Close
      rw [h]
    rw [hc]
    simp

/-- C5 amended, in an environment where `Flush` succeeds. -/
theorem C5_close_removes_after_flush_witness :
    okEnv.flush exampleWorkingSpace.remotes.items = none ∧
    Close okEnv exampleWorkingSpace =
      (Ending.returned,
        [Event.flush true, Event.removeAll "/tmp/gitsplit_1", Event.free "/tmp/gitsplit_1"]) :=
  ⟨rfl, (C5_close_removes_after_flush okEnv exampleWorkingSpace).1 rfl⟩

/-- C6: when `Init` fails inside `CreateWorkingSpace`, the pair returned is `nil`
and that very error; a working space is returned only with a `nil` error, and
only when `getRepository` returned a repository and `Init`, run on the working
space built on it with an empty collection, returned no error: it is the
working space `Init` left. Holds for both re-registration policies. -/
theorem C6_create_returns_no_partial_working_space (p : ReAddPolicy) (env : Env)
    (config : Config) :
    (∀ repository e, (getRepository env config).1 = .ok repository →
      (Init p env ⟨config, repository, NewGitRemoteCollection repository⟩).err = some e →
      (CreateWorkingSpace p env config).1 = (none, some e)) ∧
    (∀ ws, (CreateWorkingSpace p env config).1.1 = some ws →
      (CreateWorkingSpace p env config).1.2 = none ∧
      ∃ repository, (getRepository env config).1 = .ok repository ∧
        (Init p env ⟨config, repository, NewGitRemoteCollection repository⟩).err = none ∧
        ws = (Init p env ⟨config, repository, NewGitRemoteCollection repository⟩).ws) := by
  constructor
  · intro repository e hr he
    unfold CreateWorkingSpace
    rw [hr]
    simp only
    rw [he]
  · intro ws hws
    unfold CreateWorkingSpace at hws ⊢
    cases hr : (getRepository env config).1 with
    | error err =>
      rw [hr] at hws
      simp at hws
    | ok repository =>
      rw [hr] at hws
      simp only at hws ⊢
      cases he : (Init p env ⟨config, repository, NewGitRemoteCollection repository⟩).err with
      | some err =>
        rw [he] at hws
        simp at hws
      | none =>
        rw [he] at hws
        simp only [Option.some.injEq] at hws
        exact ⟨rfl, repository, rfl, he, hws.symm⟩

/-- C6, where `Flush` fails inside `Init`: nothing but the flush error comes
back. -/
theorem C6_create_returns_no_partial_working_space_witness :
    (getRepository flushFailEnv exampleConfig).1 = .ok ⟨"/tmp/gitsplit_1"⟩ ∧
    (Init .replace flushFailEnv
      ⟨exampleConfig, ⟨"/tmp/gitsplit_1"⟩, NewGitRemoteCollection ⟨"/tmp/gitsplit_1"⟩⟩).err =
      some (GoError.new "flush failed") ∧
    (CreateWorkingSpace .replace flushFailEnv exampleConfig).1 =
      (none, some (GoError.new "flush failed")) :=
  ⟨rfl, rfl,
    (C6_create_returns_no_partial_working_space .replace flushFailEnv exampleConfig).1
      ⟨"/tmp/gitsplit_1"⟩ (GoError.new "flush failed") rfl rfl⟩

/-- C8: with a local cache path, `getRepository` first makes the cache path a
bare repository. When that call succeeds the cache is copied into the
temporary directory, and when the copy succeeds too the temporary directory is
opened and what `OpenRepository` returns is the result; `CreateWorkingSpace`
then returns a working space on the opened repository once `Init` succeeds.
A copy happens only after a successful `InitRepository` on the cache path.
When `InitRepository` or the copy fails, the result is that failure wrapped,
the temporary directory is never opened as a repository, and
`CreateWorkingSpace` returns no working space. -/
theorem C8_cache_initialised_before_copy (p : ReAddPolicy) (env : Env) (config : Config)
    (c : GitUrl) (hc : config.CacheUrl = some c) (hl : c.isLocal = true) :
    (∀ dst r, env.tempDir = .ok dst → env.initCache c.schemelessUrl = .ok r →
      env.copy c.schemelessUrl dst = none →
      getRepository env config =
        (env.openRepository dst,
          [Event.tempDir true, Event.initRepository c.schemelessUrl true true,
            Event.free r.path, Event.copy c.schemelessUrl dst true,
            Event.openRepository dst (isOk (env.openRepository dst))])) ∧
    (∀ dst r e, env.tempDir = .ok dst → env.initCache c.schemelessUrl = .ok r →
      env.copy c.schemelessUrl dst = some e →
      getRepository env config =
        (.error (GoError.wrap e "failed to create working space from cache"),
          [Event.tempDir true, Event.initRepository c.schemelessUrl true true,
            Event.free r.path, Event.copy c.schemelessUrl dst false])) ∧
    (∀ dst e, env.tempDir = .ok dst → env.initCache c.schemelessUrl = .error e →
      getRepository env config =
        (.error (GoError.wrap e "failed to initialize cache repository"),
          [Event.tempDir true, Event.initRepository c.schemelessUrl true false])) ∧
    (∀ dst r repository, env.tempDir = .ok dst → env.initCache c.schemelessUrl = .ok r →
      env.copy c.schemelessUrl dst = none → env.openRepository dst = .ok repository →
      (Init p env ⟨config, repository, NewGitRemoteCollection repository⟩).err = none →
      ∃ ws, (CreateWorkingSpace p env config).1 = (some ws, none) ∧
        ws.repository = repository) ∧
    (∀ dst, env.tempDir = .ok dst →
      ∃ ok rest, (getRepository env config).2 =
        Event.tempDir true :: Event.initRepository c.schemelessUrl true ok :: rest) ∧
    (∀ src dst ok, Event.copy src dst ok ∈ (getRepository env config).2 →
      src = c.schemelessUrl ∧ (∃ r, env.initCache c.schemelessUrl = .ok r) ∧
      ∃ pre post, (getRepository env config).2 = pre ++ Event.copy src dst ok :: post ∧
        Event.initRepository c.schemelessUrl true true ∈ pre) ∧
    (∀ e, env.initCache c.schemelessUrl = .error e →
      (∃ e2, (getRepository env config).1 = .error e2) ∧
      (∀ dst, env.tempDir = .ok dst → (getRepository env config).1 =
        .error (GoError.wrap e "failed to initialize cache repository")) ∧
      (∀ src dst ok, Event.copy src dst ok ∉ (getRepository env config).2) ∧
      (∀ path ok, Event.openRepository path ok ∉ (getRepository env config).2)) ∧
    (∀ dst e, env.tempDir = .ok dst → env.copy c.schemelessUrl dst = some e →
      (∃ e2, (getRepository env config).1 = .error e2) ∧
      (∀ r, env.initCache c.schemelessUrl = .ok r → (getRepository env config).1 =
        .error (GoError.wrap e "failed to create working space from cache")) ∧
      (∀ path ok, Event.openRepository path ok ∉ (getRepository env config).2)) ∧
    (∀ e2, (getRepository env config).1 = .error e2 →
      (CreateWorkingSpace p env config).1 =
        (none, some (GoError.wrap e2 "failed to create working repository"))) := by
  have hok : ∀ dst r, env.tempDir = .ok dst → env.initCache c.schemelessUrl = .ok r →
      env.copy c.schemelessUrl dst = none →
      getRepository env config =
        (env.openRepository dst,
          [Event.tempDir true, Event.initRepository c.schemelessUrl true true,
            Event.free r.path, Event.copy c.schemelessUrl dst true,
            Event.openRepository dst (isOk (env.openRepository dst))]) := by
    intro dst r ht hi hcp
    unfold getRepository
    rw [ht, hc]
    simp only [hl, if_true]
    rw [hi]
    simp only
    rw [hcp]
  refine ⟨hok, ?_, ?_, ?_, ?_, ?_, ?_, ?_, ?_⟩
  · intro dst r e ht hi hcp
    unfold getRepository
    rw [ht, hc]
    simp only [hl, if_true]
    rw [hi]
    simp only
    rw [hcp]
  · intro dst e ht hi
    unfold getRepository
    rw [ht, hc]
    simp only [hl, if_true]
    rw [hi]
  · intro dst r repository ht hi hcp ho herr
    have hg : (getRepository env config).1 = .ok repository := by
      rw [hok dst r ht hi hcp]
      exact ho
    have hre : (Init p env ⟨config, repository, NewGitRemoteCollection repository⟩).ws.repository
        = repository := by
      have hb := bootstrap_none_of_Init_ok p env _ herr
      rw [Init_of_bootstrap_none p env _ hb]
    refine ⟨(Init p env ⟨config, repository, NewGitRemoteCollection repository⟩).ws, ?_, hre⟩
    unfold CreateWorkingSpace
    rw [hg]
    simp only
    rw [herr]
  · intro dst ht
    unfold getRepository
    rw [ht, hc]
    simp only [hl, if_true]
    cases env.initCache c.schemelessUrl with
    | error err => exact ⟨false, [], rfl⟩
    | ok repository =>
      cases env.copy c.schemelessUrl dst with
      | some err => exact ⟨true, _, rfl⟩
      | none => exact ⟨true, _, rfl⟩
  · intro src dst ok hmem
    unfold getRepository at hmem ⊢
    cases ht : env.tempDir with
    | error err =>
      rw [ht] at hmem
      simp at hmem
    | ok repoPath =>
      rw [ht, hc] at hmem
      rw [hc]
      simp only [hl, if_true] at hmem ⊢
      cases hi : env.initCache c.schemelessUrl with
      | error err =>
        rw [hi] at hmem
        simp at hmem
      | ok repository =>
        rw [hi] at hmem
        simp only at hmem ⊢
        cases hcp : env.copy c.schemelessUrl repoPath with
        | some err =>
          rw [hcp] at hmem
          simp at hmem
          obtain ⟨h1, h2, h3⟩ := hmem
          subst h1 h2 h3
          exact ⟨rfl, ⟨repository, rfl⟩,
            [Event.tempDir true, Event.initRepository c.schemelessUrl true true,
              Event.free repository.path], [], rfl, by simp⟩
        | none =>
          rw [hcp] at hmem
          simp at hmem
          obtain ⟨h1, h2, h3⟩ := hmem
          subst h1 h2 h3
          exact ⟨rfl, ⟨repository, rfl⟩,
            [Event.tempDir true, Event.initRepository c.schemelessUrl true true,
              Event.free repository.path],
            _, rfl, by simp⟩
  · intro e hi
    unfold getRepository
    cases ht : env.tempDir with
    | error err => simp
    | ok repoPath =>
      rw [hc]
      simp [hl, hi]
  · intro dst e ht hcp
    unfold getRepository
    rw [ht, hc]
    simp only [hl, if_true]
    cases hi : env.initCache c.schemelessUrl with
    | error err => simp
    | ok repository => simp [hcp]
  · intro e2 h
    unfold CreateWorkingSpace
    rw [h]

/-- C8, at a configuration with a local cache: where every call succeeds, where
the copy fails, and where the cache path cannot be made a repository. -/
theorem C8_cache_initialised_before_copy_witness :
    cachedConfig.CacheUrl = some ⟨"file:///var/cache/split", "/var/cache/split", true⟩ ∧
    getRepository okEnv cachedConfig =
      (okEnv.openRepository "/tmp/gitsplit_1",
        [Event.tempDir true, Event.initRepository "/var/cache/split" true true,
          Event.free "/var/cache/split",
          Event.copy "/var/cache/split" "/tmp/gitsplit_1" true,
          Event.openRepository "/tmp/gitsplit_1" (isOk (okEnv.openRepository "/tmp/gitsplit_1"))]) ∧
    okEnv.openRepository "/tmp/gitsplit_1" = .ok ⟨"/tmp/gitsplit_1"⟩ ∧
    (∃ ws, (CreateWorkingSpace .replace okEnv cachedConfig).1 = (some ws, none) ∧
      ws.repository = ⟨"/tmp/gitsplit_1"⟩) ∧
    getRepository copyFailEnv cachedConfig =
      (.error (GoError.wrap (GoError.new "disk full") "failed to create working space from cache"),
        [Event.tempDir true, Event.initRepository "/var/cache/split" true true,
          Event.free "/var/cache/split",
          Event.copy "/var/cache/split" "/tmp/gitsplit_1" false]) ∧
    getRepository initFailEnv cachedConfig =
      (.error (GoError.wrap (GoError.new "permission denied")
          "failed to initialize cache repository"),
        [Event.tempDir true, Event.initRepository "/var/cache/split" true false]) ∧
    (CreateWorkingSpace .replace copyFailEnv cachedConfig).1 =
      (none, some (GoError.wrap
        (GoError.wrap (GoError.new "disk full") "failed to create working space from cache")
        "failed to create working repository")) :=
  ⟨rfl,
    (C8_cache_initialised_before_copy .replace okEnv cachedConfig
      ⟨"file:///var/cache/split", "/var/cache/split", true⟩ rfl rfl).1
      "/tmp/gitsplit_1" ⟨"/var/cache/split"⟩ rfl rfl rfl,
    rfl,
    (C8_cache_initialised_before_copy .replace okEnv cachedConfig
      ⟨"file:///var/cache/split", "/var/cache/split", true⟩ rfl rfl).2.2.2.1
      "/tmp/gitsplit_1" ⟨"/var/cache/split"⟩ ⟨"/tmp/gitsplit_1"⟩ rfl rfl rfl rfl (by decide),
    (C8_cache_initialised_before_copy .replace copyFailEnv cachedConfig
      ⟨"file:///var/cache/split", "/var/cache/split", true⟩ rfl rfl).2.1
      "/tmp/gitsplit_1" ⟨"/var/cache/split"⟩ (GoError.new "disk full") rfl rfl rfl,
    (C8_cache_initialised_before_copy .replace initFailEnv cachedConfig
      ⟨"file:///var/cache/split", "/var/cache/split", true⟩ rfl rfl).2.2.1
      "/tmp/gitsplit_1" (GoError.new "permission denied") rfl rfl,
    (C8_cache_initialised_before_copy .replace copyFailEnv cachedConfig
      ⟨"file:///var/cache/split", "/var/cache/split", true⟩ rfl rfl).2.2.2.2.2.2.2.2
      (GoError.wrap (GoError.new "disk full") "failed to create working space from cache") rfl⟩

/-- C7, as stated, fails: a failure of `Flush` is returned by `Init` as it is,
with no message added, and a failed `Fetch` of `origin` is not returned at
all. -/
theorem C7_counterexample :
    (Event.flush false ∈ (Init .replace flushFailEnv exampleWorkingSpace).trace ∧
      (Init .replace flushFailEnv exampleWorkingSpace).err = some (GoError.new "flush failed") ∧
      ∀ cause msg, (Init .replace flushFailEnv exampleWorkingSpace).err ≠
        some (GoError.wrap cause msg)) ∧
    (Event.fetch "origin" false ∈ (Init .replace fetchFailEnv exampleWorkingSpace).trace ∧
      (Init .replace fetchFailEnv exampleWorkingSpace).err = none) := by
  refine ⟨⟨by decide, rfl, ?_⟩, by decide, rfl⟩
  intro cause msg h
  have h2 : (Init .replace flushFailEnv exampleWorkingSpace).err =
      some (GoError.new "flush failed") := rfl
  rw [h2] at h
  cases h

/-- C7, amended: a failure of the cache bootstrap is returned by `Init` wrapped
with the message "failed to initialize working space", after that one call;
past the bootstrap, `Init` returns what `Flush` returns, so a failure of
`Flush` comes back as it is, with no message added; the outcome of `Fetch` is
not read and changes neither the error `Init` returns nor the collection it
leaves; and no step is retried: a trace of `Init` has at most one
`InitRepository`, at most one `Flush` and at most one `Fetch` per remote name. -/
theorem C7_init_failures (p : ReAddPolicy) (env : Env) (w : WorkingSpace) :
    (∀ c e, w.config.CacheUrl = some c → env.fileExists c.schemelessUrl = false →
      env.initBootstrap c.schemelessUrl = .error e →
      (Init p env w).err = some (GoError.wrap e "failed to initialize working space") ∧
      (Init p env w).trace = [Event.initRepository c.schemelessUrl true false]) ∧
    ((bootstrap env w.config).2 = none →
      (Init p env w).err = env.flush (Init p env w).ws.remotes.items) ∧
    (∀ f, (Init p (env.withFetch f) w).err = (Init p env w).err ∧
      (Init p (env.withFetch f) w).ws = (Init p env w).ws) ∧
    ((Init p env w).trace.countP Event.isInitRepository ≤ 1 ∧
      (Init p env w).trace.countP Event.isFlush ≤ 1 ∧
      ∀ n, (Init p env w).trace.countP (Event.isFetchOf n) ≤ 1) := by
  refine ⟨?_, ?_, ?_, ?_⟩
  · intro c e hc hf hi
    have hb : bootstrap env w.config =
        ([Event.initRepository c.schemelessUrl true false],
          some (GoError.wrap e "failed to initialize working space")) := by
      unfold bootstrap
      rw [hc]
      simp [hf, hi]
    rw [Init_of_bootstrap_some p env w _ (by rw [hb]), hb]
    exact ⟨rfl, rfl⟩
  · intro hb
    rw [Init_of_bootstrap_none p env w hb]
  · intro f
    cases hb : (bootstrap env w.config).2 with
    | some e =>
      rw [Init_of_bootstrap_some p env w e hb,
        Init_of_bootstrap_some p (env.withFetch f) w e (by rw [bootstrap_withFetch]; exact hb)]
      exact ⟨rfl, rfl⟩
    | none =>
      rw [Init_of_bootstrap_none p env w hb,
        Init_of_bootstrap_none p (env.withFetch f) w (by rw [bootstrap_withFetch]; exact hb)]
      simp [registerAll_remotes, Env.withFetch]
  · cases hb : (bootstrap env w.config).2 with
    | some e =>
      rw [Init_of_bootstrap_some p env w e hb]
      have hc := bootstrap_counts env w.config
      exact ⟨hc.1, by rw [hc.2.1]; exact Nat.zero_le 1, fun n => by rw [hc.2.2 n]; exact Nat.zero_le 1⟩
    | none =>
      rw [Init_of_bootstrap_none p env w hb]
      obtain ⟨b1, b2, ht⟩ := registerAll_trace p env w
      have hc := bootstrap_counts env w.config
      simp only [ht, List.countP_append]
      refine ⟨?_, ?_, ?_⟩
      · rw [countP_targets _ _ (fun _ => rfl)]
        cases w.config.CacheUrl <;>
          simp [List.countP_cons, Event.isInitRepository, hc.1]
      · rw [countP_targets _ _ (fun _ => rfl), hc.2.1]
        cases w.config.CacheUrl <;> simp [List.countP_cons, Event.isFlush]
      · intro n
        rw [countP_targets _ _ (fun _ => rfl), hc.2.2 n]
        cases w.config.CacheUrl with
        | none =>
          simp only [List.countP_cons, List.countP_nil, Event.isFetchOf]
          split <;> simp
        | some c =>
          simp only [List.countP_cons, List.countP_nil, Event.isFetchOf]
          by_cases h1 : n = "cache"
          · subst h1
            simp
          · have : ("cache" == n) = false := by
              simp
              exact fun h => h1 h.symm
            simp [this]
            split <;> simp

/-- C7 amended, where the bootstrap of the cache path fails. -/
theorem C7_init_failures_witness :
    cachedConfig.CacheUrl = some ⟨"file:///var/cache/split", "/var/cache/split", true⟩ ∧
    initFailEnv.fileExists "/var/cache/split" = false ∧
    initFailEnv.initBootstrap "/var/cache/split" = .error (GoError.new "permission denied") ∧
    (Init .replace initFailEnv (freshWorkingSpace cachedConfig ⟨"/tmp/gitsplit_1"⟩)).err =
      some (GoError.wrap (GoError.new "permission denied") "failed to initialize working space") ∧
    (Init .replace initFailEnv (freshWorkingSpace cachedConfig ⟨"/tmp/gitsplit_1"⟩)).trace =
      [Event.initRepository "/var/cache/split" true false] :=
  ⟨rfl, rfl, rfl,
    (C7_init_failures .replace initFailEnv (freshWorkingSpace cachedConfig ⟨"/tmp/gitsplit_1"⟩)).1
      ⟨"file:///var/cache/split", "/var/cache/split", true⟩ (GoError.new "permission denied")
      rfl rfl rfl⟩

/-- C9, as stated, fails: with a cache configured whose path does not exist and
cannot be made a repository, `Init` returns at line 97 before any
registration; for a configuration that lists the target `git@host:t1.git`
twice, the collection is left without a remote of that name, not with one. -/
theorem C9_counterexample :
    (allTargets cachedRepeatedConfig.Splits).count "git@host:t1.git" = 2 ∧
    (freshWorkingSpace cachedRepeatedConfig ⟨"/tmp/gitsplit_1"⟩).remotes.items = [] ∧
    (Init .replace initFailEnv
      (freshWorkingSpace cachedRepeatedConfig ⟨"/tmp/gitsplit_1"⟩)).ws.remotes.items = [] ∧
    (Init .replace initFailEnv
      (freshWorkingSpace cachedRepeatedConfig ⟨"/tmp/gitsplit_1"⟩)).ws.remotes.items.countP
        (fun r => r.name == "git@host:t1.git") = 0 ∧
    (Init .replace initFailEnv
      (freshWorkingSpace cachedRepeatedConfig ⟨"/tmp/gitsplit_1"⟩)).ws.remotes.items.countP
        (fun r => r.name == "git@host:t1.git") ≠ 1 := by
  decide

/-- C9, amended: registering a target more than once changes nothing. `Init` on
the configuration with the repeated occurrences of targets removed (first
occurrences kept, within a split and across splits) leaves the same remote
collection, and returns the same error, as `Init` on the configuration itself;
the targets of that configuration are the same ones, each once. Unless the
bootstrap of the cache path fails (a cache is configured, its path does not
exist and `InitRepository` on it fails), `Init` on a collection that holds at
most one remote per name leaves one remote, and no more, under the name of
every target; when the bootstrap fails, `Init` leaves the collection as it
was. Holds for both re-registration policies. -/
theorem C9_repeated_targets_idempotent (p : ReAddPolicy) (env : Env) (w : WorkingSpace) :
    (Init p env ⟨dedupConfig w.config, w.repository, w.remotes⟩).ws.remotes =
      (Init p env w).ws.remotes ∧
    (Init p env ⟨dedupConfig w.config, w.repository, w.remotes⟩).err = (Init p env w).err ∧
    ((allTargets (dedupConfig w.config).Splits).Nodup ∧
      ∀ t, t ∈ allTargets (dedupConfig w.config).Splits ↔ ∃ s ∈ w.config.Splits, t ∈ s.Targets) ∧
    ((∀ c, w.config.CacheUrl = some c →
        env.fileExists c.schemelessUrl = true ∨
          ∃ r, env.initBootstrap c.schemelessUrl = .ok r) →
      w.remotes.names.Nodup →
      ∀ s ∈ w.config.Splits, ∀ t ∈ s.Targets,
        (Init p env w).ws.remotes.items.countP (fun r => r.name == t) = 1) ∧
    (∀ c e, w.config.CacheUrl = some c → env.fileExists c.schemelessUrl = false →
      env.initBootstrap c.schemelessUrl = .error e →
      (Init p env w).ws.remotes = w.remotes) := by
  have hinit : (Init p env ⟨dedupConfig w.config, w.repository, w.remotes⟩).ws.remotes =
        (Init p env w).ws.remotes ∧
      (Init p env ⟨dedupConfig w.config, w.repository, w.remotes⟩).err = (Init p env w).err := by
    cases hb : (bootstrap env w.config).2 with
    | some e =>
      rw [Init_of_bootstrap_some p env w e hb,
        Init_of_bootstrap_some p env ⟨dedupConfig w.config, w.repository, w.remotes⟩ e
          (by rw [bootstrap_dedup]; exact hb)]
      exact ⟨rfl, rfl⟩
    | none =>
      rw [Init_of_bootstrap_none p env w hb,
        Init_of_bootstrap_none p env ⟨dedupConfig w.config, w.repository, w.remotes⟩
          (by rw [bootstrap_dedup]; exact hb)]
      simp [registerAll_remotes, registerRemotes_dedup]
  refine ⟨hinit.1, hinit.2, ⟨?_, ?_⟩, ?_, ?_⟩
  · show (allTargets (dedupSplits [] w.config.Splits)).Nodup
    rw [allTargets_dedupSplits]
    exact nodup_dedupTargets _ _
  · intro t
    show t ∈ allTargets (dedupSplits [] w.config.Splits) ↔ _
    rw [allTargets_dedupSplits, mem_dedupTargets, mem_allTargets]
    simp
  · intro hpass h0 s hs t ht
    have hb := bootstrap_of_pass env w.config hpass
    have hn : (Init p env w).ws.remotes.names =
        (allTargets w.config.Splits).foldl insertName
          (insertName (cacheNames w.config w.remotes.names) "origin") := by
      rw [Init_of_bootstrap_none p env w hb]
      exact registerAll_names p env w
    have hbase : (cacheNames w.config w.remotes.names).Nodup := by
      unfold cacheNames
      cases w.config.CacheUrl with
      | none => exact h0
      | some c => exact nodup_insertName _ "cache" h0
    have hnodup : (Init p env w).ws.remotes.names.Nodup := by
      rw [hn]
      exact nodup_foldl_insertName _ _ (nodup_insertName _ _ hbase)
    have hmem : t ∈ (Init p env w).ws.remotes.names := by
      rw [hn, mem_foldl_insertName, mem_allTargets]
      exact Or.inr ⟨s, hs, ht⟩
    have hcount := List.count_eq_one_of_mem hnodup hmem
    unfold GitRemoteCollection.names at hcount
    rw [List.count, List.countP_map] at hcount
    exact hcount
  · intro c e hc hf hi
    have hb := bootstrap_of_fail env w.config c e hc hf hi
    rw [Init_of_bootstrap_some p env w _ (by rw [hb])]

/-- C9 amended, at a configuration with a cache that lists a target twice, where
every call succeeds: the collections agree and one remote bears the name. -/
theorem C9_repeated_targets_idempotent_witness :
    (∀ c, (freshWorkingSpace cachedRepeatedConfig ⟨"/tmp/gitsplit_1"⟩).config.CacheUrl = some c →
        okEnv.fileExists c.schemelessUrl = true ∨
          ∃ r, okEnv.initBootstrap c.schemelessUrl = .ok r) ∧
    (freshWorkingSpace cachedRepeatedConfig ⟨"/tmp/gitsplit_1"⟩).remotes.names.Nodup ∧
    (allTargets cachedRepeatedConfig.Splits).count "git@host:t1.git" = 2 ∧
    (Init .replace okEnv
      (freshWorkingSpace cachedRepeatedConfig ⟨"/tmp/gitsplit_1"⟩)).ws.remotes.items.countP
        (fun r => r.name == "git@host:t1.git") = 1 ∧
    (Init .replace okEnv
      (freshWorkingSpace cachedRepeatedConfig ⟨"/tmp/gitsplit_1"⟩)).ws.remotes.items =
      [⟨"cache", "file:///var/cache/split", ["split"]⟩,
        ⟨"origin", "https://example/proj.git", ["heads", "tags"]⟩,
        ⟨"git@host:t1.git", "git@host:t1.git", ["heads", "tags"]⟩] :=
  ⟨fun c _ => Or.inr ⟨⟨c.schemelessUrl⟩, rfl⟩, List.nodup_nil, by decide,
    (C9_repeated_targets_idempotent .replace okEnv
      (freshWorkingSpace cachedRepeatedConfig ⟨"/tmp/gitsplit_1"⟩)).2.2.2.1
      (fun c _ => Or.inr ⟨⟨c.schemelessUrl⟩, rfl⟩) List.nodup_nil
      ⟨["git@host:t1.git", "git@host:t1.git"]⟩ (by decide) "git@host:t1.git" (by decide),
    by decide⟩

end Gitsplit
